import Mathlib

/-!
Verification development for the trade-idea normalization engine of the
Gpt-telegram-supabase repository (src/main.py).

The repository delegates the whole normalization step to a large-language
model driven by the rule text SYSTEM_PROMPT in src/main.py; the only
executable decision logic in the file is insert_trade_row and the
handle_message Telegram callback.  The engine itself is therefore embedded
here as a pure Lean function, modelled from the specification (sections
4.1-4.8) and from the SYSTEM_PROMPT rules, which are the authoritative
statement of its behavior.  insert_trade_row and handle_message are
embedded from the Python source directly.

Prices are represented as exact decimals (a mantissa and a power-of-ten
exponent, the shape of a JSON decimal literal), dates as day numbers
(Nat), and the string-valued enumerations of the prompt (cp, entry_cond,
sl_cond, trade_type) as the exact strings the prompt mandates.
-/

namespace TradeBot

/-- A decimal price literal: the value num divided by 10 to the exp.
This is the exact shape of a decimal number in the JSON the engine
emits. -/
structure Price where
  num : Nat
  exp : Nat
deriving DecidableEq, Repr

/-- Denominator of a decimal. -/
def Price.den (p : Price) : Nat := 10 ^ p.exp

/-- A decimal is positive when its mantissa is. -/
def Price.Pos (p : Price) : Prop := 0 < p.num

instance (p : Price) : Decidable p.Pos := Nat.decLt 0 p.num

/-- Engine configuration: the reference date (a day number, used for the
expiry field) and the default timeframe string (the prompt uses "5m"). -/
structure Config where
  refDate : Nat
  defaultTf : String
deriving DecidableEq, Repr

/-- One final trade row, with exactly the fields of the SYSTEM_PROMPT
output schema (src/main.py lines 74-97). -/
structure TradeRow where
  symbol : String
  asset_type : String
  cp : String
  strike : Nat
  expiry : Nat
  qty : Option Nat
  entry_type : String
  entry_cond : String
  entry_level : Option Price
  entry_tf : Option String
  sl_type : Option String
  sl_cond : Option String
  sl_level : Option Price
  sl_tf : Option String
  tp_type : String
  tp_level : Price
  note : String
  trade_type : String
deriving DecidableEq, Repr

/-- The mandatory output wrapper of the engine (src/main.py lines 43-55). -/
structure ResultEnvelope where
  has_trades : Bool
  no_trade_reason : Option String
  trades : List TradeRow
deriving DecidableEq, Repr

/-- The four setup kinds of a structured A+ sheet (spec section 3). -/
inductive SetupKind where
  | rejection
  | breakdown
  | breakout
  | bounce
deriving DecidableEq, Repr, BEq

/-- One typed directional trigger extracted from a structured sheet:
kind, trigger level and ordered target list (spec section 3). -/
structure Setup where
  kind : SetupKind
  trigger : Price
  targets : List Price
deriving DecidableEq, Repr

/-- A per-symbol block of a structured sheet: symbol, its setups in line
order, and the optional bias line shared by all of them. -/
structure SymbolBlock where
  symbol : String
  setups : List Setup
  bias : Option String
deriving DecidableEq, Repr

/-- Direction of a free-form idea. -/
inductive Dir where
  | bull
  | bear
deriving DecidableEq, Repr

/-- Entry phrase of a free-form idea (spec section 4.3). -/
inductive EntryPhrase where
  | now
  | above (x : Price)
  | below (x : Price)
deriving DecidableEq, Repr

/-- One free-form directional trade idea (spec section 3): symbol,
direction, entry phrase, target list and optional stop phrase.  The stop
phrase is kept as the sl_cond string ("ca" or "cb") plus its level. -/
structure Idea where
  symbol : String
  dir : Dir
  entry : EntryPhrase
  targets : List Price
  stop : Option (String × Price)
deriving DecidableEq, Repr

/-! Character-level parsing utilities.  The extractors work on lists of
characters so that every function is structurally recursive. -/

/-- Split a character list on a separator character. -/
def splitOnChar (sep : Char) : List Char → List (List Char)
  | [] => [[]]
  | c :: cs =>
    match splitOnChar sep cs with
    | [] => [[c]]
    | w :: ws => if c == sep then [] :: w :: ws else (c :: w) :: ws

/-- Whether the pattern occurs at the head of the list. -/
def beginsWith : List Char → List Char → Bool
  | [], _ => true
  | _ :: _, [] => false
  | p :: ps, c :: cs => p == c && beginsWith ps cs

/-- Whether the pattern occurs anywhere in the list. -/
def containsSeq (pat : List Char) : List Char → Bool
  | [] => pat.isEmpty
  | c :: cs => beginsWith pat (c :: cs) || containsSeq pat cs

/-- Drop spaces and carriage returns from both ends of a line. -/
def trimEnds (l : List Char) : List Char :=
  let isBlank : Char → Bool := fun c => c == ' ' || c == '\r'
  ((l.dropWhile isBlank).reverse.dropWhile isBlank).reverse

/-- Numeric value of a digit character. -/
def digitOfChar (c : Char) : Nat := c.toNat - 48

/-- Value of a digit run. -/
def digitsToNat (l : List Char) : Nat :=
  l.foldl (fun acc c => 10 * acc + digitOfChar c) 0

/-- Parse a decimal literal such as 683.90 into a Price. -/
def parseDec (w : List Char) : Option Price :=
  match splitOnChar '.' w with
  | [a] =>
    if !a.isEmpty && a.all Char.isDigit then some ⟨digitsToNat a, 0⟩ else none
  | [a, b] =>
    if (!a.isEmpty || !b.isEmpty) && a.all Char.isDigit && b.all Char.isDigit then
      some ⟨digitsToNat a * 10 ^ b.length + digitsToNat b, b.length⟩
    else none
  | _ => none

/-- Keep digits and decimal points, blank out everything else; used to
find the numeric tokens of a line, tolerant of separators (spec 4.2). -/
def keepNumChar (c : Char) : Char :=
  if c.isDigit || c == '.' then c else ' '

/-- The numeric tokens of a line, in order. -/
def numbersOf (l : List Char) : List Price :=
  ((splitOnChar ' ' (l.map keepNumChar)).filter (fun w => !w.isEmpty)).filterMap parseDec

/-! Setup extractor (spec sections 4.1 and 4.2, SYSTEM_PROMPT Mode 1).
A structured sheet consists of symbol header lines, setup lines labelled
Rejection, Breakdown, Breakout or Bounce with a trigger and a target
list, and an optional bias line per symbol. -/

/-- Classification of one line of a structured sheet. -/
inductive LineInfo where
  | header (sym : String)
  | setupLine (s : Setup)
  | biasLine (t : String)
  | noise
deriving DecidableEq, Repr

/-- Setup-kind keyword of a line (searched case-insensitively on the
lowered line). -/
def kindOf (low : List Char) : Option SetupKind :=
  if containsSeq "rejection".data low then some .rejection
  else if containsSeq "breakdown".data low then some .breakdown
  else if containsSeq "breakout".data low then some .breakout
  else if containsSeq "bounce".data low then some .bounce
  else none

/-- Build a setup from a kind and the numeric tokens of its line: the
first number is the trigger, the following ones (up to three) are the
targets.  The line is rejected when the trigger or a target is not a
positive decimal (spec sections 3 and 4.2). -/
def mkSetup (k : SetupKind) (nums : List Price) : Option Setup :=
  match nums with
  | [] => none
  | trig :: rest =>
    let tgts := rest.take 3
    if trig.Pos ∧ tgts ≠ [] ∧ ∀ t ∈ tgts, t.Pos then some ⟨k, trig, tgts⟩ else none

/-- Classify one raw line: a short all-uppercase line is a symbol header,
a line mentioning Bias is the bias line, a line with a setup keyword and
parsable numbers is a setup line, anything else is noise. -/
def parseLine (l : List Char) : LineInfo :=
  let tr := trimEnds l
  let low := l.map Char.toLower
  if tr ≠ [] ∧ tr.length ≤ 5 ∧ tr.all Char.isUpper then .header (String.mk tr)
  else if containsSeq "bias".data low then .biasLine (String.mk tr)
  else
    match kindOf low with
    | some k =>
      match mkSetup k (numbersOf l) with
      | some s => .setupLine s
      | none => .noise
    | none => .noise

/-- Accumulator for grouping classified lines into symbol blocks. -/
structure GatherAcc where
  pend : List Setup
  pbias : Option String
  blocks : List SymbolBlock
deriving Repr

/-- Group classified lines into symbol blocks: each header line collects
the setup lines and bias line that follow it, up to the next header.
Setup lines before any header are discarded (spec 4.1: a block counts
only under a symbol header). -/
def gather : List LineInfo → GatherAcc
  | [] => ⟨[], none, []⟩
  | i :: rest =>
    let g := gather rest
    match i with
    | .header sym => ⟨[], none, ⟨sym, g.pend, g.pbias⟩ :: g.blocks⟩
    | .setupLine s => ⟨s :: g.pend, g.pbias, g.blocks⟩
    | .biasLine t => ⟨g.pend, some t, g.blocks⟩
    | .noise => g

/-- Extract the symbol blocks of a message. -/
def extractBlocks (text : String) : List SymbolBlock :=
  (gather ((splitOnChar '\n' text.data).map parseLine)).blocks

/-! Idea extractor (spec section 4.3, SYSTEM_PROMPT Mode 2). -/

/-- One token of a free-form message: a lower-cased word or a number. -/
inductive Tok where
  | word (w : String)
  | num (x : Price)
deriving DecidableEq, Repr

/-- Keep letters, digits and decimal points; blank out everything else. -/
def keepTokChar (c : Char) : Char :=
  if c.isAlpha || c.isDigit || c == '.' then c else ' '

/-- Tokenize a message: split on blanks, numbers become num tokens, other
pieces become lower-cased word tokens. -/
def tokensOf (text : String) : List Tok :=
  (((text.data.map fun c => if c == '\n' then ' ' else c).map keepTokChar
      |> splitOnChar ' ').filter (fun w => !w.isEmpty)).map fun w =>
    match parseDec w with
    | some x => .num x
    | none => .word (String.mk (w.map Char.toLower))

/-- A ticker-like token: one to five uppercase letters. -/
def symbolOf (text : String) : Option String :=
  ((splitOnChar ' ' (text.data.map fun c => if c.isAlpha then c else ' ')).filter
      fun w => !w.isEmpty && w.length ≤ 5 && w.all Char.isUpper).head?.map String.mk

def bullWords : List String := ["bullish", "long", "call", "calls", "buy"]
def bearWords : List String := ["bearish", "short", "put", "puts", "sell"]
def aboveWords : List String := ["above", "over", "break", "breakout"]
def belowWords : List String := ["below", "under", "lose", "breakdown"]
def targetWords : List String :=
  ["target", "targets", "targeting", "tp", "to", "toward", "towards", "for"]
def stopWords : List String := ["stop", "invalid", "invalidation", "cut"]

/-- First explicit direction keyword of the message. -/
def findDir : List Tok → Option Dir
  | [] => none
  | .word w :: rest =>
    if bullWords.contains w then some .bull
    else if bearWords.contains w then some .bear
    else findDir rest
  | .num _ :: rest => findDir rest

/-- First entry phrase: now or at open, or an above or below word followed
by a positive number.  The search stops at a stop keyword so that a stop
clause level is not mistaken for the entry trigger. -/
def findEntry : List Tok → Option EntryPhrase
  | [] => none
  | .num _ :: rest => findEntry rest
  | .word w :: rest =>
    if stopWords.contains w then none
    else if w == "now" then some .now
    else if w == "at" then
      match rest with
      | .word o :: _ => if o == "open" then some .now else findEntry rest
      | _ => findEntry rest
    else if aboveWords.contains w then
      match rest with
      | .num x :: _ => if x.Pos then some (.above x) else findEntry rest
      | _ => findEntry rest
    else if belowWords.contains w then
      match rest with
      | .num x :: _ => if x.Pos then some (.below x) else findEntry rest
      | _ => findEntry rest
    else findEntry rest

/-- After a stop keyword: the first above or below word followed by a
positive number, mapped to the sl_cond codes of the prompt ("ca" for
above, "cb" for below). -/
def findStopFrom : List Tok → Option (String × Price)
  | [] => none
  | .num _ :: rest => findStopFrom rest
  | .word w :: rest =>
    if aboveWords.contains w then
      match rest with
      | .num x :: _ => if x.Pos then some ("ca", x) else none
      | _ => findStopFrom rest
    else if belowWords.contains w then
      match rest with
      | .num x :: _ => if x.Pos then some ("cb", x) else none
      | _ => findStopFrom rest
    else findStopFrom rest

/-- The stop phrase of the message, if any. -/
def findStop : List Tok → Option (String × Price)
  | [] => none
  | .num _ :: rest => findStop rest
  | .word w :: rest =>
    if stopWords.contains w then findStopFrom rest else findStop rest

/-- Collect the numbers that follow a target keyword; the flag records
whether the last word seen was a target keyword. -/
def collectTargets : Bool → List Tok → List Price
  | _, [] => []
  | collecting, .num x :: rest =>
    if collecting then x :: collectTargets collecting rest
    else collectTargets collecting rest
  | _, .word w :: rest => collectTargets (targetWords.contains w) rest

/-- All four extraction results of the idea extractor, each best-effort. -/
def extractIdeaParts (text : String) :
    Option String × Option Dir × Option EntryPhrase × List Price ×
      Option (String × Price) :=
  let toks := tokensOf text
  let entry := findEntry toks
  let dir :=
    match findDir toks with
    | some d => some d
    | none =>
      match entry with
      | some (.above _) => some .bull
      | some (.below _) => some .bear
      | _ => none
  let tgts := ((collectTargets false toks).filter fun t => decide t.Pos).take 3
  (symbolOf text, dir, entry, tgts, findStop toks)

/-- The extracted idea: produced only when symbol, direction, entry
trigger and at least one target are all determined (SYSTEM_PROMPT Mode 2
conditions; spec 4.3 fails closed otherwise). -/
def extractIdea (text : String) : Option Idea :=
  match extractIdeaParts text with
  | (some sym, some d, some e, t :: ts, stop) => some ⟨sym, d, e, t :: ts, stop⟩
  | _ => none

/-! Row expansion and contract selection (SYSTEM_PROMPT A+ execution
rules, Mode 2 rules, and the 0DTE option field rules; spec 4.4-4.6). -/

/-- Nearest whole-number strike to the reference price, ties rounded up
(spec 4.6: strike = reference price rounded to the nearest integer):
the floor of the price plus one half, computed on the decimal
representation. -/
def strikeOf (p : Price) : Nat :=
  (2 * p.num + p.den) / (2 * p.den)

/-- Display name of a setup kind, for the note field. -/
def kindName : SetupKind → String
  | .rejection => "Rejection"
  | .breakdown => "Breakdown"
  | .breakout => "Breakout"
  | .bounce => "Bounce"

/-- The note of an A+ row: symbol, setup type and the bias text when
present (SYSTEM_PROMPT notes field rules). -/
def noteOf (sym : String) (k : SetupKind) (bias : Option String) : String :=
  sym ++ " " ++ kindName k ++
    match bias with
    | some b => ", " ++ b
    | none => ""

/-- Expand one A+ setup into one trade row per target, following the A+
execution rules of SYSTEM_PROMPT exactly: Breakout is a call entered on a
5m close above the trigger with stop at the Breakdown level, Breakdown a
put entered on a close below with stop at the Breakout level, Bounce and
Rejection are touch-entry scalps stopped at their own level.  When the
sheet has no opposite level for a structural stop, the stop fields stay
null (SYSTEM_PROMPT: stop fields are all set or all null).  Every row is
a 0DTE option: expiry is the reference date, strike the nearest whole
strike to the entry level, trade_type always "day". -/
def setupRows (cfg : Config) (sym : String) (bias : Option String)
    (boLvl bdLvl : Option Price) (s : Setup) : List TradeRow :=
  let mk : String → String → Option Price → Option String →
      Option String → Option String → Option Price → Option String → Price → TradeRow :=
    fun cp cond lvl tf slt slc sll sltf t =>
      { symbol := sym, asset_type := "option", cp := cp,
        strike := strikeOf s.trigger, expiry := cfg.refDate, qty := none,
        entry_type := "equity", entry_cond := cond, entry_level := lvl, entry_tf := tf,
        sl_type := slt, sl_cond := slc, sl_level := sll, sl_tf := sltf,
        tp_type := "equity", tp_level := t,
        note := noteOf sym s.kind bias, trade_type := "day" }
  match s.kind with
  | .breakout =>
    match bdLvl with
    | some l =>
      s.targets.map (mk "call" "ca" (some s.trigger) (some cfg.defaultTf)
        (some "equity") (some "cb") (some l) (some cfg.defaultTf))
    | none =>
      s.targets.map (mk "call" "ca" (some s.trigger) (some cfg.defaultTf)
        none none none none)
  | .breakdown =>
    match boLvl with
    | some l =>
      s.targets.map (mk "put" "cb" (some s.trigger) (some cfg.defaultTf)
        (some "equity") (some "ca") (some l) (some cfg.defaultTf))
    | none =>
      s.targets.map (mk "put" "cb" (some s.trigger) (some cfg.defaultTf)
        none none none none)
  | .bounce =>
    s.targets.map (mk "call" "at" (some s.trigger) none
      (some "equity") (some "cb") (some s.trigger) (some cfg.defaultTf))
  | .rejection =>
    s.targets.map (mk "put" "at" (some s.trigger) none
      (some "equity") (some "ca") (some s.trigger) (some cfg.defaultTf))

/-- Expand a symbol block: the Breakout and Breakdown triggers of the
block provide the structural stop levels, then every setup is expanded
independently, in line order. -/
def expandBlock (cfg : Config) (b : SymbolBlock) : List TradeRow :=
  let boLvl := (b.setups.find? fun s => s.kind == SetupKind.breakout).map Setup.trigger
  let bdLvl := (b.setups.find? fun s => s.kind == SetupKind.breakdown).map Setup.trigger
  b.setups.flatMap (setupRows cfg b.symbol b.bias boLvl bdLvl)

/-- Expand a free-form idea into one row per target (SYSTEM_PROMPT Mode
2): the entry condition follows the right (call entries close above, put
entries close below, per spec 4.4), a level entry uses the default
timeframe, a now entry leaves level and timeframe null.  The strike
reference is the entry level, else the stop level for a now entry with a
stop, else the target (spec 4.6). -/
def expandIdea (cfg : Config) (idea : Idea) : List TradeRow :=
  let cp := match idea.dir with | .bull => "call" | .bear => "put"
  let entryFields : String × Option Price × Option String :=
    match idea.entry with
    | .now => ("now", none, none)
    | .above x => (if cp == "call" then "ca" else "cb", some x, some cfg.defaultTf)
    | .below x => (if cp == "call" then "ca" else "cb", some x, some cfg.defaultTf)
  let slFields : Option String × Option String × Option Price × Option String :=
    match idea.stop with
    | none => (none, none, none, none)
    | some (c, x) => (some "equity", some c, some x, some cfg.defaultTf)
  idea.targets.map fun t =>
    let refPrice :=
      match entryFields.2.1 with
      | some x => x
      | none =>
        match slFields.2.2.1 with
        | some x => x
        | none => t
    { symbol := idea.symbol, asset_type := "option", cp := cp,
      strike := strikeOf refPrice, expiry := cfg.refDate, qty := none,
      entry_type := "equity", entry_cond := entryFields.1,
      entry_level := entryFields.2.1, entry_tf := entryFields.2.2,
      sl_type := slFields.1, sl_cond := slFields.2.1,
      sl_level := slFields.2.2.1, sl_tf := slFields.2.2.2,
      tp_type := "equity", tp_level := t,
      note := idea.symbol ++ " general idea", trade_type := "day" }

/-! Classification and assembly (spec 4.1, 4.8). -/

/-- Shape of an incoming message. -/
inductive MsgClass where
  | sheet
  | freeform
  | unparseable
deriving DecidableEq, Repr

/-- Classify a message: a structured sheet when at least one labelled
setup block sits under a symbol header, otherwise a free-form idea when
symbol, direction, entry trigger and a target are all present, otherwise
unparseable (spec 4.1). -/
def classify (text : String) : MsgClass :=
  if (extractBlocks text).any (fun b => !b.setups.isEmpty) then .sheet
  else if (extractIdea text).isSome then .freeform
  else .unparseable

/-- All draft rows of a message. -/
def allRows (cfg : Config) (text : String) : List TradeRow :=
  match classify text with
  | .sheet => (extractBlocks text).flatMap (expandBlock cfg)
  | .freeform =>
    match extractIdea text with
    | some idea => expandIdea cfg idea
    | none => []
  | .unparseable => []

/-- A short, specific no-trade reason chosen from the fixed list of spec
4.8, based on what the idea extractor could not determine. -/
def noTradeReasonOf (text : String) : String :=
  match extractIdeaParts text with
  | (none, _, _, _, _) => "no identifiable symbol"
  | (some _, _, none, _, _) => "no actionable entry trigger"
  | (some _, _, some _, [], _) => "no target level given"
  | _ => "message too vague to extract a rule"

/-- Wrap the rows into the output envelope (spec 4.8, SYSTEM_PROMPT
mandatory output wrapper): at least one row gives has_trades true with a
null reason; no rows give has_trades false, an empty list and a reason. -/
def assemble (rows : List TradeRow) (reason : String) : ResultEnvelope :=
  match rows with
  | [] => ⟨false, some reason, []⟩
  | r :: rs => ⟨true, none, r :: rs⟩

/-- Modelled from the spec: the full engine, one pure function from the
message text and configuration to a result envelope.  The repository
implements this step as the SYSTEM_PROMPT instruction text executed by a
remote language model (src/main.py call_gpt); the classification,
extraction, expansion and assembly stages here follow spec sections
4.1-4.8 together with the SYSTEM_PROMPT rules. -/
def process (cfg : Config) (text : String) : ResultEnvelope :=
  assemble (allRows cfg text) (noTradeReasonOf text)

/-! Row and envelope invariants, stated as executable predicates. -/

/-- Direction consistency (SYSTEM_PROMPT lines 110-115 and 393-395): a
call row may only carry entry_cond ca, at or now; a put row only cb, at
or now. -/
def directionOk (r : TradeRow) : Bool :=
  if r.cp == "call" then
    r.entry_cond == "ca" || r.entry_cond == "at" || r.entry_cond == "now"
  else if r.cp == "put" then
    r.entry_cond == "cb" || r.entry_cond == "at" || r.entry_cond == "now"
  else false

/-- Whether an optional level is present and positive. -/
def posOpt : Option Price → Bool
  | some x => decide x.Pos
  | none => false

/-- Entry field rules (SYSTEM_PROMPT lines 306-309): a now entry has null
level and null timeframe, a close-above or close-below entry has a
positive level and the default timeframe, a touch entry has a positive
level and a null timeframe. -/
def entryFieldsOk (cfg : Config) (r : TradeRow) : Bool :=
  if r.entry_cond == "now" then r.entry_level.isNone && r.entry_tf.isNone
  else if r.entry_cond == "ca" || r.entry_cond == "cb" then
    posOpt r.entry_level && r.entry_tf == some cfg.defaultTf
  else if r.entry_cond == "at" then posOpt r.entry_level && r.entry_tf.isNone
  else false

/-- The four stop fields are all set or all null (SYSTEM_PROMPT line 349,
spec 4.7). -/
def stopAllOrNone (r : TradeRow) : Bool :=
  (r.sl_type.isNone && r.sl_cond.isNone && r.sl_level.isNone && r.sl_tf.isNone) ||
  (r.sl_type.isSome && r.sl_cond.isSome && r.sl_level.isSome && r.sl_tf.isSome)

/-- All per-row invariants the engine guarantees on every produced row. -/
def rowOk (cfg : Config) (r : TradeRow) : Bool :=
  directionOk r && entryFieldsOk cfg r && stopAllOrNone r &&
  decide r.tp_level.Pos && (r.expiry == cfg.refDate) && (r.trade_type == "day")

/-- Well-formedness of the output envelope (SYSTEM_PROMPT lines 51-55):
has_trades is false exactly when the trade list is empty and a reason
string is present, and a true envelope carries a null reason. -/
def wellFormedEnvelope (e : ResultEnvelope) : Bool :=
  ((e.has_trades == false) == (e.trades.isEmpty && e.no_trade_reason.isSome)) &&
  (!e.has_trades || e.no_trade_reason.isNone)

/-! Serialization of the envelope, used to state byte-level determinism. -/

/-- Byte rendering of a decimal as mantissa and exponent. -/
def priceStr (p : Price) : String :=
  toString p.num ++ "e-" ++ toString p.exp

def serOptStr : Option String → String
  | none => "null"
  | some s => s

def serOptPrice : Option Price → String
  | none => "null"
  | some x => priceStr x

def serOptNat : Option Nat → String
  | none => "null"
  | some n => toString n

/-- Byte rendering of one trade row, field by field in schema order. -/
def serRow (r : TradeRow) : String :=
  r.symbol ++ "|" ++ r.asset_type ++ "|" ++ r.cp ++ "|" ++ toString r.strike ++ "|" ++
  toString r.expiry ++ "|" ++ serOptNat r.qty ++ "|" ++ r.entry_type ++ "|" ++
  r.entry_cond ++ "|" ++ serOptPrice r.entry_level ++ "|" ++ serOptStr r.entry_tf ++ "|" ++
  serOptStr r.sl_type ++ "|" ++ serOptStr r.sl_cond ++ "|" ++ serOptPrice r.sl_level ++ "|" ++
  serOptStr r.sl_tf ++ "|" ++ r.tp_type ++ "|" ++ priceStr r.tp_level ++ "|" ++
  r.note ++ "|" ++ r.trade_type

/-- Byte rendering of a whole envelope. -/
def serializeEnvelope (e : ResultEnvelope) : String :=
  (if e.has_trades then "true" else "false") ++ "|" ++
  serOptStr e.no_trade_reason ++ "|" ++
  String.intercalate ";" (e.trades.map serRow)

/-- Modelled from the spec: the NearTerm expiry policy of spec 4.6, which
the spec offers as a configurable alternative and which is absent from
the code (SYSTEM_PROMPT lines 358-364 mandate 0DTE only).  Whether a
days-to-expiry value lies in the band of a trade type: Scalp 0-1 days,
Day 1-5 days, Swing 14-30 days. -/
def nearTermBandContains (tt : String) (dte : Nat) : Bool :=
  if tt == "scalp" then dte ≤ 1
  else if tt == "day" then 1 ≤ dte && dte ≤ 5
  else if tt == "swing" then 14 ≤ dte && dte ≤ 30
  else false

/-! The persistence call and the Telegram handler, embedded from the
Python source (src/main.py lines 685-766). -/

/-- Outcome of the HTTP POST issued by insert_trade_row: either
requests.post raised, or it returned a status code. -/
inductive PostOutcome where
  | exc
  | status (code : Nat)
deriving DecidableEq, Repr

/-- insert_trade_row (src/main.py lines 685-713): an exception from the
request is caught and yields False; a response with status 200, 201 or
204 yields True; any other status yields False.  The function is total:
it never propagates an exception. -/
def insert_trade_row (o : PostOutcome) : Bool :=
  match o with
  | .exc => false
  | .status c => c == 200 || c == 201 || c == 204

/-- The insert loop of handle_message (src/main.py lines 758-762): every
row is submitted in order regardless of earlier failures, and the number
of successful inserts is counted.  The argument gives each row's insert
outcome.  Returns the submitted rows and the success count. -/
def submit_all (ins : TradeRow → Bool) : List TradeRow → List TradeRow × Nat
  | [] => ([], 0)
  | t :: ts =>
    let ok := ins t
    let r := submit_all ins ts
    (t :: r.1, (if ok then 1 else 0) + r.2)

/-- The envelope-consuming part of handle_message (src/main.py lines
745-766): a falsy has_trades sends the no-trade message with the
envelope's reason (defaulting to "No trade detected."); a true envelope
with an empty trades list sends a diagnostic; otherwise every row is
submitted and the acknowledgement reports the number of successful
inserts.  Returns the rows submitted and the chat message sent. -/
def handle_envelope (ins : TradeRow → Bool) (env : ResultEnvelope) :
    List TradeRow × String :=
  if !env.has_trades then
    ([], "⚠️ No trade: " ++ env.no_trade_reason.getD "No trade detected.")
  else
    match env.trades with
    | [] => ([], "⚠️ GPT returned no trades array.")
    | t :: ts =>
      let r := submit_all ins (t :: ts)
      (r.1, "✅ " ++ toString r.2 ++ " trade(s) inserted into Supabase.")

/-! Helper lemmas. -/

/-- The trades of the envelope are exactly the rows the pipeline built. -/
theorem trades_process (cfg : Config) (text : String) :
    (process cfg text).trades = allRows cfg text := by
  unfold process assemble
  cases allRows cfg text <;> rfl

/-- The assembler always yields a well-formed envelope. -/
theorem assemble_wf (rows : List TradeRow) (reason : String) :
    wellFormedEnvelope (assemble rows reason) = true := by
  cases rows <;> rfl

/-- Every row of the pipeline comes from a sheet block or from the
extracted idea. -/
theorem mem_allRows {cfg : Config} {text : String} {r : TradeRow}
    (h : r ∈ allRows cfg text) :
    (∃ b ∈ extractBlocks text, r ∈ expandBlock cfg b) ∨
    (∃ idea, extractIdea text = some idea ∧ r ∈ expandIdea cfg idea) := by
  unfold allRows at h
  cases hc : classify text <;> simp only [hc] at h
  · exact Or.inl (List.mem_flatMap.mp h)
  · cases hi : extractIdea text <;> simp only [hi] at h
    · exact absurd h (List.not_mem_nil r)
    · exact Or.inr ⟨_, rfl, h⟩
  · exact absurd h (List.not_mem_nil r)

/-- A setup built by mkSetup has a positive trigger and positive targets. -/
theorem mkSetup_pos {k : SetupKind} {nums : List Price} {s : Setup}
    (h : mkSetup k nums = some s) :
    s.trigger.Pos ∧ ∀ t ∈ s.targets, t.Pos := by
  unfold mkSetup at h
  cases nums with
  | nil => exact absurd h (by simp)
  | cons trig rest =>
    dsimp only at h
    split at h
    · rename_i hcond
      cases h
      exact ⟨hcond.1, hcond.2.2⟩
    · exact absurd h (by simp)

/-- A setup line recognized by parseLine satisfies the mkSetup bounds. -/
theorem parseLine_setup_pos {l : List Char} {s : Setup}
    (h : parseLine l = .setupLine s) :
    s.trigger.Pos ∧ ∀ t ∈ s.targets, t.Pos := by
  unfold parseLine at h
  dsimp only at h
  split at h
  · exact absurd h (by simp)
  · split at h
    · exact absurd h (by simp)
    · split at h
      · split at h
        · rename_i hmk
          cases h
          exact mkSetup_pos hmk
        · exact absurd h (by simp)
      · exact absurd h (by simp)

/-- Every setup of a gathered block comes from a setup line. -/
theorem gather_setup_mem {infos : List LineInfo} {s : Setup}
    (h : s ∈ (gather infos).pend ∨ ∃ b ∈ (gather infos).blocks, s ∈ b.setups) :
    LineInfo.setupLine s ∈ infos := by
  induction infos with
  | nil =>
    rcases h with h | ⟨b, hb, _⟩
    · exact absurd h (List.not_mem_nil s)
    · exact absurd hb (List.not_mem_nil b)
  | cons i rest ih =>
    cases i with
    | header sym =>
      rcases h with h | ⟨b, hb, hs⟩
      · exact absurd h (List.not_mem_nil s)
      · rcases List.mem_cons.mp hb with rfl | hb
        · exact List.mem_cons_of_mem _ (ih (Or.inl hs))
        · exact List.mem_cons_of_mem _ (ih (Or.inr ⟨b, hb, hs⟩))
    | setupLine s0 =>
      rcases h with h | hb
      · rcases List.mem_cons.mp h with rfl | h
        · exact List.mem_cons_self _ _
        · exact List.mem_cons_of_mem _ (ih (Or.inl h))
      · exact List.mem_cons_of_mem _ (ih (Or.inr hb))
    | biasLine t => exact List.mem_cons_of_mem _ (ih h)
    | noise => exact List.mem_cons_of_mem _ (ih h)

/-- Every setup of an extracted block has a positive trigger and positive
targets. -/
theorem extractBlocks_pos {text : String} {b : SymbolBlock} {s : Setup}
    (hb : b ∈ extractBlocks text) (hs : s ∈ b.setups) :
    s.trigger.Pos ∧ ∀ t ∈ s.targets, t.Pos := by
  have hmem : LineInfo.setupLine s ∈ (splitOnChar '\n' text.data).map parseLine :=
    gather_setup_mem (Or.inr ⟨b, hb, hs⟩)
  obtain ⟨l, _, hl⟩ := List.mem_map.mp hmem
  exact parseLine_setup_pos hl

/-- An entry phrase found by the scanner carries a positive level. -/
theorem findEntry_pos {toks : List Tok} {e : EntryPhrase}
    (h : findEntry toks = some e) :
    ∀ x, (e = .above x ∨ e = .below x) → x.Pos := by
  induction toks with
  | nil => exact absurd h (by simp [findEntry])
  | cons t rest ih =>
    cases t with
    | num y => exact ih h
    | word w =>
      unfold findEntry at h
      repeat' split at h
      all_goals
        first
        | exact ih h
        | (cases h <;> rintro x (hx | hx) <;> cases hx <;> assumption)

/-- The idea extractor only produces ideas with a positive entry level
and positive targets. -/
theorem extractIdea_pos {text : String} {idea : Idea}
    (h : extractIdea text = some idea) :
    (∀ x, (idea.entry = .above x ∨ idea.entry = .below x) → x.Pos) ∧
    (∀ t ∈ idea.targets, t.Pos) := by
  unfold extractIdea at h
  split at h
  · rename_i sym d e t ts stop heq
    cases h
    unfold extractIdeaParts at heq
    dsimp only at heq
    simp only [Prod.mk.injEq] at heq
    obtain ⟨hsym, hdir, hent, htg, hstop⟩ := heq
    constructor
    · exact findEntry_pos hent
    · intro u hu
      simp only [Idea.targets] at hu
      rw [← htg] at hu
      have hu2 := List.take_subset 3 _ hu
      exact of_decide_eq_true (List.mem_filter.mp hu2).2
  · exact absurd h (by simp)

/-- Every row of an expanded setup satisfies the row invariants, given
the extractor bounds on trigger and targets. -/
theorem setupRows_ok {cfg : Config} {sym : String} {bias : Option String}
    {bo bd : Option Price} {s : Setup} {r : TradeRow}
    (htr : s.trigger.Pos) (htg : ∀ t ∈ s.targets, t.Pos)
    (h : r ∈ setupRows cfg sym bias bo bd s) : rowOk cfg r = true := by
  obtain ⟨k, trig, tgts⟩ := s
  simp only at htr htg
  cases k <;> unfold setupRows at h <;> dsimp only at h
  case rejection =>
    obtain ⟨t, ht, rfl⟩ := List.mem_map.mp h
    simp [rowOk, directionOk, entryFieldsOk, posOpt, stopAllOrNone, htr, htg t ht]
  case breakdown =>
    cases bo <;> dsimp only at h <;> obtain ⟨t, ht, rfl⟩ := List.mem_map.mp h <;>
      simp [rowOk, directionOk, entryFieldsOk, posOpt, stopAllOrNone, htr, htg t ht]
  case breakout =>
    cases bd <;> dsimp only at h <;> obtain ⟨t, ht, rfl⟩ := List.mem_map.mp h <;>
      simp [rowOk, directionOk, entryFieldsOk, posOpt, stopAllOrNone, htr, htg t ht]
  case bounce =>
    obtain ⟨t, ht, rfl⟩ := List.mem_map.mp h
    simp [rowOk, directionOk, entryFieldsOk, posOpt, stopAllOrNone, htr, htg t ht]

/-- Every row of an expanded block comes from one of its setups. -/
theorem mem_expandBlock {cfg : Config} {b : SymbolBlock} {r : TradeRow}
    (h : r ∈ expandBlock cfg b) :
    ∃ s ∈ b.setups, ∃ bo bd, r ∈ setupRows cfg b.symbol b.bias bo bd s := by
  unfold expandBlock at h
  dsimp only at h
  obtain ⟨s, hs, hr⟩ := List.mem_flatMap.mp h
  exact ⟨s, hs, _, _, hr⟩

/-- Every row of an expanded idea satisfies the row invariants, given the
extractor bounds on entry level and targets. -/
theorem expandIdea_ok {cfg : Config} {idea : Idea} {r : TradeRow}
    (he : ∀ x, (idea.entry = .above x ∨ idea.entry = .below x) → x.Pos)
    (ht : ∀ t ∈ idea.targets, t.Pos)
    (h : r ∈ expandIdea cfg idea) : rowOk cfg r = true := by
  obtain ⟨sym, d, e, tgts, stop⟩ := idea
  simp only at he ht
  unfold expandIdea at h
  dsimp only at h
  cases d <;> cases e <;> rcases stop with _ | ⟨c, x⟩ <;>
      dsimp only at h <;> obtain ⟨t, htm, rfl⟩ := List.mem_map.mp h <;>
    (simp [rowOk, directionOk, entryFieldsOk, posOpt, stopAllOrNone, ht t htm] <;>
      exact he _ (by simp))

/-- Every row of every produced envelope satisfies the row invariants. -/
theorem rows_ok {cfg : Config} {text : String} {r : TradeRow}
    (h : r ∈ (process cfg text).trades) : rowOk cfg r = true := by
  rw [trades_process] at h
  rcases mem_allRows h with ⟨b, hb, hr⟩ | ⟨idea, hi, hr⟩
  · obtain ⟨s, hs, bo, bd, hrs⟩ := mem_expandBlock hr
    obtain ⟨htr, htg⟩ := extractBlocks_pos hb hs
    exact setupRows_ok htr htg hrs
  · obtain ⟨he, ht⟩ := extractIdea_pos hi
    exact expandIdea_ok he ht hr

/-- The insert loop submits all rows in order and counts the successes. -/
theorem submit_all_spec (ins : TradeRow → Bool) (l : List TradeRow) :
    (submit_all ins l).1 = l ∧ (submit_all ins l).2 = l.countP ins := by
  induction l with
  | nil => exact ⟨rfl, rfl⟩
  | cons t ts ih =>
    unfold submit_all
    dsimp only
    refine ⟨by rw [ih.1], ?_⟩
    rw [ih.2, List.countP_cons]
    cases hins : ins t <;> simp [hins, Nat.add_comm]

/-- Unpacking of the per-row invariant bundle. -/
theorem rowOk_parts {cfg : Config} {r : TradeRow} (h : rowOk cfg r = true) :
    directionOk r = true ∧ entryFieldsOk cfg r = true ∧ stopAllOrNone r = true ∧
    r.tp_level.Pos ∧ r.expiry = cfg.refDate ∧ r.trade_type = "day" := by
  simp only [rowOk, Bool.and_eq_true, decide_eq_true_eq, beq_iff_eq] at h
  tauto

/-! The claims. -/

/-- Claim C1 (confirmed): for every input message string, however
malformed, and every configuration, processing produces a well-formed
result envelope: the has_trades flag, reason and trade list are mutually
consistent.  The engine is a total Lean function, so no exception can
escape its boundary. -/
theorem c1_total_well_formed (cfg : Config) (text : String) :
    wellFormedEnvelope (process cfg text) = true :=
  assemble_wf (allRows cfg text) (noTradeReasonOf text)

/-- Claim C2 (confirmed): the engine is a pure function of the message
text and the configuration, free of any I/O; two runs on identical input
and configuration serialize to byte-identical envelopes. -/
theorem c2_idempotent (cfg : Config) (text : String) (e₁ e₂ : ResultEnvelope)
    (h₁ : e₁ = process cfg text) (h₂ : e₂ = process cfg text) :
    serializeEnvelope e₁ = serializeEnvelope e₂ := by
  rw [h₁, h₂]

/-- Witness for C2 at a concrete input. -/
theorem c2_idempotent_witness :
    serializeEnvelope (process ⟨20251, "5m"⟩ "SPY long above 5 to 6") =
      serializeEnvelope (process ⟨20251, "5m"⟩ "SPY long above 5 to 6") :=
  c2_idempotent ⟨20251, "5m"⟩ "SPY long above 5 to 6" _ _ rfl rfl

/-- Claim C3 (confirmed): in every produced envelope, has_trades is false
exactly when the trade list is empty and the no-trade reason is a
non-null string, and the reason is null exactly when has_trades is
true. -/
theorem c3_no_trade_totality (cfg : Config) (text : String) :
    ((process cfg text).has_trades = false ↔
      (process cfg text).trades = [] ∧ (process cfg text).no_trade_reason ≠ none) ∧
    ((process cfg text).no_trade_reason = none ↔ (process cfg text).has_trades = true) := by
  unfold process assemble
  cases allRows cfg text <;> simp

/-- Claim C10 (confirmed): insert_trade_row returns true exactly when the
HTTP POST completed with status 200, 201 or 204; an exception from the
request, or any other status code, yields false, and the function is
total. -/
theorem c10_insert_iff (o : PostOutcome) :
    insert_trade_row o = true ↔
      ∃ c, o = PostOutcome.status c ∧ (c = 200 ∨ c = 201 ∨ c = 204) := by
  cases o with
  | exc => simp [insert_trade_row]
  | status c =>
    simp only [insert_trade_row, Bool.or_eq_true, beq_iff_eq,
      PostOutcome.status.injEq]
    constructor
    · intro h
      exact ⟨c, rfl, by tauto⟩
    · rintro ⟨c2, rfl, hc⟩
      tauto

/-- One expanded setup yields exactly one row per target. -/
theorem setupRows_length (cfg : Config) (sym : String) (bias : Option String)
    (bo bd : Option Price) (s : Setup) :
    (setupRows cfg sym bias bo bd s).length = s.targets.length := by
  obtain ⟨k, trig, tgts⟩ := s
  cases k <;> cases bo <;> cases bd <;> simp [setupRows]

/-- Claim C4 (confirmed): a symbol block carrying all four setup kinds,
each with exactly three targets, expands to exactly twelve rows; a block
carrying only a Breakout setup with three targets expands to exactly
three rows, one per target in order, all sharing the same entry and stop
fields. -/
theorem c4_row_count_law (cfg : Config) (sym : String) (bias : Option String)
    (s₁ s₂ s₃ s₄ : Setup)
    (h₁ : s₁.kind = .rejection) (h₂ : s₂.kind = .breakdown)
    (h₃ : s₃.kind = .breakout) (h₄ : s₄.kind = .bounce)
    (t₁ : s₁.targets.length = 3) (t₂ : s₂.targets.length = 3)
    (t₃ : s₃.targets.length = 3) (t₄ : s₄.targets.length = 3) :
    (expandBlock cfg ⟨sym, [s₁, s₂, s₃, s₄], bias⟩).length = 12 ∧
    (expandBlock cfg ⟨sym, [s₃], bias⟩).length = 3 ∧
    (expandBlock cfg ⟨sym, [s₃], bias⟩).map TradeRow.tp_level = s₃.targets ∧
    (expandBlock cfg ⟨sym, [s₃], bias⟩).map
        (fun r => (r.entry_cond, r.entry_level, r.entry_tf,
          r.sl_type, r.sl_cond, r.sl_level, r.sl_tf)) =
      List.replicate 3 ("ca", some s₃.trigger, some cfg.defaultTf,
        none, none, none, none) := by
  refine ⟨?_, ?_, ?_, ?_⟩
  · simp [expandBlock, setupRows_length, t₁, t₂, t₃, t₄]
  · simp [expandBlock, setupRows_length, t₃]
  · obtain ⟨k3, trig3, tg3⟩ := s₃
    simp only at h₃
    subst h₃
    simp [expandBlock, List.find?, setupRows, List.map_map, Function.comp_def,
      show (SetupKind.breakout == SetupKind.breakdown) = false from rfl,
      show (SetupKind.breakout == SetupKind.breakout) = true from rfl]
  · obtain ⟨k3, trig3, tg3⟩ := s₃
    simp only at h₃ t₃
    subst h₃
    rw [show (3 : Nat) = tg3.length from t₃.symm]
    simp [expandBlock, List.find?, setupRows, List.map_map, Function.comp_def,
      List.map_const',
      show (SetupKind.breakout == SetupKind.breakdown) = false from rfl,
      show (SetupKind.breakout == SetupKind.breakout) = true from rfl]

/-- Witness for C4 at a concrete block. -/
theorem c4_row_count_witness :
    (expandBlock ⟨0, "5m"⟩ ⟨"SPY",
        [⟨.rejection, ⟨10, 0⟩, [⟨9, 0⟩, ⟨8, 0⟩, ⟨7, 0⟩]⟩,
         ⟨.breakdown, ⟨9, 0⟩, [⟨8, 0⟩, ⟨7, 0⟩, ⟨6, 0⟩]⟩,
         ⟨.breakout, ⟨11, 0⟩, [⟨12, 0⟩, ⟨13, 0⟩, ⟨14, 0⟩]⟩,
         ⟨.bounce, ⟨10, 0⟩, [⟨11, 0⟩, ⟨12, 0⟩, ⟨13, 0⟩]⟩], none⟩).length = 12 ∧
    (expandBlock ⟨0, "5m"⟩
        ⟨"SPY", [⟨.breakout, ⟨11, 0⟩, [⟨12, 0⟩, ⟨13, 0⟩, ⟨14, 0⟩]⟩], none⟩).length = 3 ∧
    (expandBlock ⟨0, "5m"⟩
        ⟨"SPY", [⟨.breakout, ⟨11, 0⟩, [⟨12, 0⟩, ⟨13, 0⟩, ⟨14, 0⟩]⟩], none⟩).map
      TradeRow.tp_level = [⟨12, 0⟩, ⟨13, 0⟩, ⟨14, 0⟩] ∧
    (expandBlock ⟨0, "5m"⟩
        ⟨"SPY", [⟨.breakout, ⟨11, 0⟩, [⟨12, 0⟩, ⟨13, 0⟩, ⟨14, 0⟩]⟩], none⟩).map
        (fun r => (r.entry_cond, r.entry_level, r.entry_tf,
          r.sl_type, r.sl_cond, r.sl_level, r.sl_tf)) =
      List.replicate 3 ("ca", some ⟨11, 0⟩, some "5m", none, none, none, none) :=
  c4_row_count_law ⟨0, "5m"⟩ "SPY" none _ _ _ _ rfl rfl rfl rfl rfl rfl rfl rfl

/-- Claim C5 (confirmed): every produced row pairs a call only with entry
condition ca, at or now, and a put only with cb, at or now; no row ever
pairs a call with cb or a put with ca. -/
theorem c5_direction_consistency (cfg : Config) (text : String) (r : TradeRow)
    (h : r ∈ (process cfg text).trades) : directionOk r = true :=
  (rowOk_parts (rows_ok h)).1

/-- The call row produced for a small free-form idea. -/
def c5row : TradeRow :=
  { symbol := "SPY", asset_type := "option", cp := "call", strike := 682,
    expiry := 0, qty := none, entry_type := "equity", entry_cond := "ca",
    entry_level := some ⟨682, 0⟩, entry_tf := some "5m", sl_type := none,
    sl_cond := none, sl_level := none, sl_tf := none, tp_type := "equity",
    tp_level := ⟨684, 0⟩, note := "SPY general idea", trade_type := "day" }

/-- Witness for C5 at a concrete produced row. -/
theorem c5_direction_witness : directionOk c5row = true :=
  c5_direction_consistency ⟨0, "5m"⟩ "SPY long above 682 to 684" c5row (by decide)

/-- The touch-entry scalp row produced for a Bounce setup line. -/
def c6row : TradeRow :=
  { symbol := "SPY", asset_type := "option", cp := "call", strike := 5,
    expiry := 0, qty := none, entry_type := "equity", entry_cond := "at",
    entry_level := some ⟨5, 0⟩, entry_tf := none, sl_type := some "equity",
    sl_cond := some "cb", sl_level := some ⟨5, 0⟩, sl_tf := some "5m",
    tp_type := "equity", tp_level := ⟨6, 0⟩, note := "SPY Bounce",
    trade_type := "day" }

/-- Counterexample to C6 as stated: the engine produces this row for a
Bounce sheet; its entry condition is at, not now, yet its entry timeframe
is null, refuting the clause that every row whose entry condition is not
Now carries a non-empty entry timeframe.  SYSTEM_PROMPT lines 306-309
mandate a null timeframe for touch entries. -/
theorem c6_counterexample :
    (process ⟨0, "5m"⟩ "SPY\nBounce 5 6").trades = [c6row] ∧
    c6row.entry_cond ≠ "now" ∧ c6row.entry_tf = none := by
  refine ⟨by decide, by decide, rfl⟩

/-- Claim C6 as amended: the entry condition is now exactly when the
entry level and timeframe are both null; a ca or cb row carries a
positive level and the default timeframe; an at row carries a positive
level and a null timeframe. -/
theorem c6_entry_invariant (cfg : Config) (text : String) (r : TradeRow)
    (h : r ∈ (process cfg text).trades) : entryFieldsOk cfg r = true :=
  (rowOk_parts (rows_ok h)).2.1

/-- The touch-entry scalp row produced for a Rejection setup line. -/
def c6wrow : TradeRow :=
  { symbol := "QQQ", asset_type := "option", cp := "put", strike := 9,
    expiry := 0, qty := none, entry_type := "equity", entry_cond := "at",
    entry_level := some ⟨9, 0⟩, entry_tf := none, sl_type := some "equity",
    sl_cond := some "ca", sl_level := some ⟨9, 0⟩, sl_tf := some "5m",
    tp_type := "equity", tp_level := ⟨8, 0⟩, note := "QQQ Rejection",
    trade_type := "day" }

/-- Witness for the amended C6 at a concrete produced row. -/
theorem c6_entry_witness : entryFieldsOk ⟨0, "5m"⟩ c6wrow = true :=
  c6_entry_invariant ⟨0, "5m"⟩ "QQQ\nRejection 9 8" c6wrow (by decide)

/-- Counterexample to C7 as stated: the engine has no expiry-policy
input, and on this Breakout sheet it emits a Day row whose expiry is the
reference date itself; under the NearTerm policy the claim offers as
selectable, a Day row must expire one to five days out, which excludes
the reference date.  The 0DTE rule is SYSTEM_PROMPT lines 358-364. -/
theorem c7_counterexample :
    (process ⟨100, "5m"⟩ "SPY\nBreakout 5 6").trades.map TradeRow.expiry = [100] ∧
    (process ⟨100, "5m"⟩ "SPY\nBreakout 5 6").trades.map TradeRow.trade_type
      = ["day"] ∧
    nearTermBandContains "day" (100 - 100) = false := by
  refine ⟨by decide, by decide, by decide⟩

/-- Claim C7 as amended: the expiry of every produced row is
unconditionally the reference date (the Zero-DTE behavior); no other
expiry policy is selectable. -/
theorem c7_zero_dte (cfg : Config) (text : String) (r : TradeRow)
    (h : r ∈ (process cfg text).trades) : r.expiry = cfg.refDate :=
  (rowOk_parts (rows_ok h)).2.2.2.2.1

/-- The put row produced for a small free-form short idea. -/
def c7row : TradeRow :=
  { symbol := "TSLA", asset_type := "option", cp := "put", strike := 430,
    expiry := 77, qty := none, entry_type := "equity", entry_cond := "cb",
    entry_level := some ⟨430, 0⟩, entry_tf := some "5m", sl_type := none,
    sl_cond := none, sl_level := none, sl_tf := none, tp_type := "equity",
    tp_level := ⟨425, 0⟩, note := "TSLA general idea", trade_type := "day" }

/-- Witness for the amended C7 at a concrete produced row. -/
theorem c7_zero_dte_witness : c7row.expiry = (⟨77, "5m"⟩ : Config).refDate :=
  c7_zero_dte ⟨77, "5m"⟩ "short TSLA below 430 to 425" c7row (by decide)

/-- Counterexample to C8 as stated: this sheet contains a single Bounce
setup, for which the claim prescribes trade_type Scalp; the engine emits
its rows with trade_type day, as SYSTEM_PROMPT lines 96-104 mandate for
every row. -/
theorem c8_counterexample :
    (process ⟨0, "5m"⟩ "SPY\nBounce 7 8").trades.map TradeRow.trade_type
      = ["day"] ∧ ("day" : String) ≠ "scalp" := by
  refine ⟨by decide, by decide⟩

/-- Claim C8 as amended: the trade_type of every produced row is the
string day, for structured-sheet rows of all four setup kinds and for
free-form idea rows alike. -/
theorem c8_trade_type_day (cfg : Config) (text : String) (r : TradeRow)
    (h : r ∈ (process cfg text).trades) : r.trade_type = "day" :=
  (rowOk_parts (rows_ok h)).2.2.2.2.2

/-- The structural put row produced for a Breakdown setup line whose
sheet also carries a Breakout line. -/
def c8row : TradeRow :=
  { symbol := "SPY", asset_type := "option", cp := "put", strike := 20,
    expiry := 0, qty := none, entry_type := "equity", entry_cond := "cb",
    entry_level := some ⟨20, 0⟩, entry_tf := some "5m", sl_type := some "equity",
    sl_cond := some "ca", sl_level := some ⟨21, 0⟩, sl_tf := some "5m",
    tp_type := "equity", tp_level := ⟨19, 0⟩, note := "SPY Breakdown",
    trade_type := "day" }

/-- Witness for the amended C8 at a concrete produced row. -/
theorem c8_trade_type_witness : c8row.trade_type = "day" :=
  c8_trade_type_day ⟨0, "5m"⟩ "SPY\nBreakdown 20 19\nBreakout 21 22" c8row
    (by decide)

/-- A minimal now-entry row used to exercise the handler. -/
def c9rowA : TradeRow :=
  { symbol := "AAA", asset_type := "option", cp := "call", strike := 1,
    expiry := 0, qty := none, entry_type := "equity", entry_cond := "now",
    entry_level := none, entry_tf := none, sl_type := none, sl_cond := none,
    sl_level := none, sl_tf := none, tp_type := "equity", tp_level := ⟨1, 0⟩,
    note := "a", trade_type := "day" }

/-- A second row, differing in its target. -/
def c9rowB : TradeRow :=
  { symbol := "AAA", asset_type := "option", cp := "call", strike := 1,
    expiry := 0, qty := none, entry_type := "equity", entry_cond := "now",
    entry_level := none, entry_tf := none, sl_type := none, sl_cond := none,
    sl_level := none, sl_tf := none, tp_type := "equity", tp_level := ⟨2, 0⟩,
    note := "a", trade_type := "day" }

/-- A two-trade envelope. -/
def c9env : ResultEnvelope := ⟨true, none, [c9rowA, c9rowB]⟩

/-- An insert outcome that fails the first row and accepts the second. -/
def c9ins : TradeRow → Bool := fun r => r.tp_level == ⟨2, 0⟩

/-- Counterexample to C9 as stated: on a two-trade envelope whose first
insert fails, the handler still submits both rows, but its chat
acknowledgement renders the count of successful inserts, one, not the
count of trades in the envelope, two (src/main.py lines 758-766 count
inserted rows and report that number). -/
theorem c9_counterexample :
    handle_envelope c9ins c9env =
      ([c9rowA, c9rowB], "✅ 1 trade(s) inserted into Supabase.") ∧
    c9env.trades.length = 2 ∧
    ("✅ 1 trade(s) inserted into Supabase." : String) ≠
      "✅ 2 trade(s) inserted into Supabase." := by
  refine ⟨by decide, by decide, by decide⟩

/-- Claim C9 as amended: for a true envelope with a non-empty trade list
the handler submits every row in order, unaffected by per-row failures
and without altering the envelope, and acknowledges with the count of
rows successfully inserted (equal to the trade count only when every
insert succeeds); for a no-trade envelope it sends the no-trade message
carrying the reason. -/
theorem c9_handler_submits_all (ins : TradeRow → Bool) (env : ResultEnvelope) :
    (env.has_trades = true → env.trades ≠ [] →
      (handle_envelope ins env).1 = env.trades ∧
      (handle_envelope ins env).2 =
        "✅ " ++ toString (env.trades.countP ins) ++
          " trade(s) inserted into Supabase.") ∧
    (env.has_trades = false →
      (handle_envelope ins env).2 =
        "⚠️ No trade: " ++ env.no_trade_reason.getD "No trade detected.") := by
  obtain ⟨ht, reason, trades⟩ := env
  constructor
  · rintro rfl hne
    cases trades with
    | nil => exact absurd rfl hne
    | cons t ts =>
      unfold handle_envelope
      dsimp only
      rw [(submit_all_spec ins (t :: ts)).1, (submit_all_spec ins (t :: ts)).2]
      exact ⟨rfl, rfl⟩
  · rintro rfl
    rfl

/-- Witness for the amended C9: one envelope whose single insert
succeeds, and one no-trade envelope. -/
theorem c9_handler_witness :
    ((handle_envelope (fun _ => true) ⟨true, none, [c9rowA]⟩).1
        = (⟨true, none, [c9rowA]⟩ : ResultEnvelope).trades ∧
      (handle_envelope (fun _ => true) ⟨true, none, [c9rowA]⟩).2 =
        "✅ " ++ toString ((⟨true, none, [c9rowA]⟩ : ResultEnvelope).trades.countP
          (fun _ => true)) ++ " trade(s) inserted into Supabase.") ∧
    (handle_envelope (fun _ => true) ⟨false, some "no target level given", []⟩).2 =
      "⚠️ No trade: " ++
        (⟨false, some "no target level given", []⟩ :
          ResultEnvelope).no_trade_reason.getD "No trade detected." :=
  ⟨(c9_handler_submits_all (fun _ => true) ⟨true, none, [c9rowA]⟩).1 rfl
      (by decide),
   (c9_handler_submits_all (fun _ => true)
      ⟨false, some "no target level given", []⟩).2 rfl⟩

end TradeBot
